import Mathlib

/-!
Shallow embedding of `core/sherlock/indexer.py` from text-sherlock.

The Python module wraps the whoosh indexing library: it opens or creates an
index directory, walks a file-system path, adds one document per file, and
delegates searches. The embedding models the indexer's mutable state
(`_index`, `_writer`, `_path`, `_name`, `_rebuild_index`, `_is_recursive`)
as a record threaded explicitly, Python exceptions as `Except`, and the
file system and on-disk index storage as explicit structures.
-/

namespace Sherlock

/-- A document as built by `Indexer._index_file`:
`dict(filename=basename(filepath), path=filepath, content=contents)`. -/
structure Doc where
  filename : String
  path : String
  content : String
  deriving DecidableEq, Repr

/-- Errors raised by the Python code, as distinguishable values.
`invalidPath` is the `Exception` raised by `_index_path` for a path that is
neither a directory nor a file; `ioError` models `read_file` failing on a
file; `invalidIndexDir` is the `Exception` raised by `open` when the given
index root is not a directory; `emptyIndex` models whoosh `open_dir`
raising on a directory holding no index; `assertionFailed` models the
`assert self._index is not None` in `index_text`; `attributeError` models
calling `add_document` on a writer that is not open. -/
inductive IndexError where
  | invalidPath (p : String)
  | ioError (p : String)
  | invalidIndexDir (p : String)
  | emptyIndex (p : String)
  | assertionFailed
  | attributeError
  deriving DecidableEq, Repr

/-- State of the whoosh writer referenced by `self._writer`:
`noWriter` is the initial `None`; `active ds` is a writer created by
`self._index.writer()` holding the write lock with buffered documents
`ds`; `committed` is a writer whose `commit()` has run, which released
the write lock. -/
inductive WriterState where
  | noWriter
  | active (ds : List Doc)
  | committed
  deriving DecidableEq, Repr

/-- The mutable state of a Python `Indexer` instance, with the source's
attribute names. `_index` is `None` until `open` succeeds; its payload is
the committed documents of the whoosh index it refers to. -/
structure Indexer where
  _index : Option (List Doc)
  _writer : WriterState
  _path : Option String
  _name : String
  _rebuild_index : Bool
  _is_recursive : Bool
  deriving DecidableEq, Repr

/-- The values this module reads from the `settings` module.
The `settings` module itself is configuration outside this file's source;
its values are abstract parameters here. `INDEXES_PATH` stands for
`settings.INDEXES_PATH % {'sherlock_dir': os.path.abspath('.')}` already
interpolated. -/
structure Settings where
  EXCLUDE_FILE_SUFFIX : List String
  INDEX_PATH : String
  INDEX_RECURSIVE : Bool
  INDEXES_PATH : String
  deriving DecidableEq, Repr

/-- Kinds of file-system entries, as distinguished by `os.path.isdir` and
`os.path.isfile`: a directory, a regular file, or neither (nonexistent). -/
inductive FsKind where
  | dir
  | file
  | absent
  deriving DecidableEq, Repr

/-- The file system as seen by the indexer: entry kinds, `read_file`
(`none` models a read raising IOError), `os.listdir` and `os.walk`
(`walk` yields `(dirpath, filenames)` pairs; `dirnames` is unused by the
code). -/
structure FileSys where
  kind : String → FsKind
  read : String → Option String
  listdir : String → List String
  walk : String → List (String × List String)

/-- On-disk index storage: the set of existing directories and, per index
directory, the committed documents of the whoosh index stored there. -/
structure Store where
  dirs : List String
  indexes : List (String × List Doc)
  deriving DecidableEq, Repr

/-- Python `s.startswith(pre)`, computed structurally over the
characters. -/
def strStartsWith (s pre : String) : Bool :=
  pre.data.isPrefixOf s.data

/-- Python `s.endswith(suf)`, computed structurally over the
characters. -/
def strEndsWith (s suf : String) : Bool :=
  suf.data.reverse.isPrefixOf s.data.reverse

/-- `os.path.join(a, b)` for the cases arising here: an absolute second
component replaces the first; otherwise the parts are joined with a
single separator. -/
def joinPath (a b : String) : String :=
  if strStartsWith b "/" then b
  else if strEndsWith a "/" || a = "" then a ++ b
  else a ++ "/" ++ b

/-- `os.path.basename(p)`: the part of `p` after the last separator. -/
def basename (p : String) : String :=
  String.mk (p.data.foldl (fun acc c => if c = '/' then [] else acc ++ [c]) [])

/-- `Indexer.__init__`: `recursive` and `rebuild_index` arrive through
`kwargs`; `kwargs.get` defaults each to `False` when absent (`none`). -/
def Indexer.init (name : String) (recursive rebuild_index : Option Bool) : Indexer :=
  { _index := none
    _writer := .noWriter
    _path := none
    _name := name
    _rebuild_index := rebuild_index.getD false
    _is_recursive := recursive.getD false }

/-- The documents buffered in a writer, empty unless the writer is active. -/
def writerDocs : WriterState → List Doc
  | .active ds => ds
  | _ => []

/-- Whether a directory exists in the store (`os.path.isdir`). -/
def Store.isdir (store : Store) (p : String) : Bool :=
  store.dirs.contains p

/-- `os.mkdir(p)`: records the directory as existing. -/
def Store.mkdir (store : Store) (p : String) : Store :=
  { store with dirs := p :: store.dirs }

/-- The committed documents of the index stored at directory `p`, if any. -/
def Store.indexAt (store : Store) (p : String) : Option (List Doc) :=
  store.indexes.lookup p

/-- whoosh `create_in(p, schema)`: replaces whatever index data lives at
`p` with a fresh empty index. -/
def Store.create_in (store : Store) (p : String) : Store :=
  { store with indexes := (p, []) :: store.indexes.filter (fun e => e.1 ≠ p) }

/-- `rm -rf p` as run by `remove_index`: removes the directory tree at
`p`, both the directory entries and any index data under them. -/
def Store.rmTree (store : Store) (p : String) : Store :=
  { dirs := store.dirs.filter (fun d => ¬ (d = p ∨ strStartsWith d (p ++ "/")))
    indexes := store.indexes.filter (fun e => ¬ (e.1 = p ∨ strStartsWith e.1 (p ++ "/"))) }

/-- `Indexer.remove_index`: deletes the indexed contents, but only when
`self._path` is set (truthy) and starts with `settings.INDEX_PATH`. -/
def Indexer.remove_index (settings : Settings) (st : Indexer) (store : Store) : Store :=
  match st._path with
  | some p =>
    if p ≠ "" ∧ strStartsWith p settings.INDEX_PATH then store.rmTree p else store
  | none => store

/-- `Indexer.open(index_path)`: raises when `index_path` is not a
directory; joins the indexer name onto it, creating that subdirectory
when missing; then either rebuilds a fresh empty index (`create_in`) or
opens the existing one (`open_dir`, which raises on a directory holding
no index); finally records `self._path`. -/
def Indexer.openIndex (st : Indexer) (store : Store) (index_path : String) :
    Except IndexError (Indexer × Store) :=
  if ¬ store.isdir index_path then
    .error (.invalidIndexDir index_path)
  else
    let path := joinPath index_path st._name
    let store1 := if store.isdir path then store else store.mkdir path
    if st._rebuild_index then
      .ok ({ st with _index := some [], _path := some path }, store1.create_in path)
    else
      match store1.indexAt path with
      | some docs => .ok ({ st with _index := some docs, _path := some path }, store1)
      | none => .error (.emptyIndex path)

/-- `Indexer._index_file(filepath)`: reads the file (IOError propagates),
builds the document `(filename=basename, path=filepath, content=contents)`
and buffers it via `self._writer.add_document`. -/
def Indexer._index_file (fs : FileSys) (st : Indexer) (filepath : String) :
    Indexer × Except IndexError Unit :=
  match fs.read filepath with
  | none => (st, .error (.ioError filepath))
  | some contents =>
    match st._writer with
    | .active ds =>
      ({ st with _writer := .active (ds ++ [⟨basename filepath, filepath, contents⟩]) },
       .ok ())
    | _ => (st, .error .attributeError)

/-- One `for` pass calling `_index_file` on each path in turn; a raised
exception propagates at once, so the remaining paths are not visited. -/
def indexFiles (fs : FileSys) (st : Indexer) : List String → Indexer × Except IndexError Unit
  | [] => (st, .ok ())
  | p :: ps =>
    match Indexer._index_file fs st p with
    | (st1, .ok _) => indexFiles fs st1 ps
    | (st1, .error e) => (st1, .error e)

/-- The exclusion test of `_index_dir`'s recursive branch: `can_index`
is cleared when the name ends with a configured suffix, then when the
name starts with a dot. -/
def canIndex (settings : Settings) (name : String) : Bool :=
  ¬ settings.EXCLUDE_FILE_SUFFIX.any (fun suffix => strEndsWith name suffix)
    ∧ ¬ strStartsWith name "."

/-- The file paths visited by the recursive branch of `_index_dir`: for
every `(dirpath, filenames)` step of `os.walk`, the names passing
`canIndex`, joined onto `dirpath`. -/
def walkFiles (settings : Settings) (walk : List (String × List String)) : List String :=
  walk.flatMap (fun step => (step.2.filter (canIndex settings)).map (joinPath step.1))

/-- `Indexer._index_dir(dpath)`: the flat branch indexes every entry of
`os.listdir` with no exclusion test; the recursive branch walks the tree
and indexes only names passing the suffix and hidden-file tests. -/
def Indexer._index_dir (fs : FileSys) (settings : Settings) (st : Indexer) (dpath : String) :
    Indexer × Except IndexError Unit :=
  if ¬ st._is_recursive then
    indexFiles fs st ((fs.listdir dpath).map (joinPath dpath))
  else
    indexFiles fs st (walkFiles settings (fs.walk dpath))

/-- `Indexer._index_path(path)`: dispatches on `os.path.isdir` /
`os.path.isfile`, raising for a path that is neither. -/
def Indexer._index_path (fs : FileSys) (settings : Settings) (st : Indexer) (path : String) :
    Indexer × Except IndexError Unit :=
  match fs.kind path with
  | .dir => Indexer._index_dir fs settings st path
  | .file => Indexer._index_file fs st path
  | .absent => (st, .error (.invalidPath path))

/-- `Indexer.index_text(path, recursive=None)`: asserts the index is
open, overwrites `self._is_recursive` when `recursive` is given, opens a
writer (acquiring the write lock), indexes the path, and commits — the
commit publishing the buffered documents and releasing the lock. An
exception from `_index_path` propagates before `commit()` runs. -/
def Indexer.index_text (fs : FileSys) (settings : Settings) (st : Indexer)
    (path : String) (recursive : Option Bool) : Indexer × Except IndexError Unit :=
  match st._index with
  | none => (st, .error .assertionFailed)
  | some docs =>
    let st1 :=
      match recursive with
      | some r => { st with _is_recursive := r }
      | none => st
    let st2 := { st1 with _writer := .active [] }
    match Indexer._index_path fs settings st2 path with
    | (st3, .error e) => (st3, .error e)
    | (st3, .ok _) =>
      ({ st3 with _index := some (docs ++ writerDocs st3._writer), _writer := .committed },
       .ok ())

/-- `get_indexer(name, rebuild_index)`: builds an `Indexer` with the
settings' recursive flag and the given rebuild flag (its own signature
defaults `rebuild_index` to `False`, modelled by `Option.getD false`),
then opens it at the settings' indexes path. -/
def get_indexer (settings : Settings) (store : Store) (name : String)
    (rebuild_index : Option Bool) : Except IndexError (Indexer × Store) :=
  (Indexer.init name (some settings.INDEX_RECURSIVE) (some (rebuild_index.getD false))).openIndex
    store settings.INDEXES_PATH

/-- Whether a whoosh field is part of the searchable index and whether
its value is stored for retrieval with results. -/
structure FieldSpec where
  indexed : Bool
  stored : Bool
  deriving DecidableEq, Repr

/-- The shape of the module-level `text_schema`. -/
structure TextSchema where
  filename : FieldSpec
  path : FieldSpec
  content : FieldSpec
  deriving DecidableEq, Repr

/-- The module's schema: `filename=TEXT(stored=True)`,
`path=ID(stored=True)`, `content=TEXT`. whoosh `TEXT` and `ID` fields
are indexed; `stored` defaults to `False`, so `content` is indexed but
not stored. -/
def text_schema : TextSchema :=
  { filename := { indexed := true, stored := true }
    path := { indexed := true, stored := true }
    content := { indexed := true, stored := false } }

/-- The fields of a document that `text_schema` marks as stored, hence
the fields retrievable with a search result. -/
structure StoredFields where
  filename : String
  path : String
  deriving DecidableEq, Repr

/-- The stored projection of a document under `text_schema`: `filename`
and `path` are stored, `content` is not. -/
def storedOf (d : Doc) : StoredFields :=
  { filename := d.filename, path := d.path }

/-- Whether a character continues a term: letters and digits do, any
other character is a word boundary. -/
def isWordChar (c : Char) : Bool :=
  c.isAlpha || c.isDigit

/-- Splits an already lowercased character stream at word boundaries,
accumulating the current term reversed in `cur`. -/
def tokenizeChars : List Char → List Char → List String
  | cur, [] => if cur = [] then [] else [String.mk cur.reverse]
  | cur, c :: cs =>
    if isWordChar c then tokenizeChars (c :: cur) cs
    else if cur = [] then tokenizeChars [] cs
    else String.mk cur.reverse :: tokenizeChars [] cs

/-- Modelled from the spec: the Tokenizer of `core/sherlock/searcher.py`
(not under `src/`) — deterministic lowercase plus word-boundary
splitting, empty text yielding an empty sequence. -/
def tokenize (text : String) : List String :=
  tokenizeChars [] (text.data.map Char.toLower)

/-- Modelled from the spec: the term frequency of `term` in a document's
content, the basis of the relevance score. -/
def termFreq (term : String) (d : Doc) : Nat :=
  (tokenize d.content).count term

/-- Modelled from the spec: a document's term-frequency-based relevance
score for a list of query terms. -/
def docScore (terms : List String) (d : Doc) : Nat :=
  (terms.map (fun t => termFreq t d)).sum

/-- One search result: document id, the stored fields, and the score. -/
structure SearchHit where
  doc_id : Nat
  fields : StoredFields
  score : Nat
  deriving DecidableEq, Repr

/-- A result page together with the total number of matches. -/
structure SearchResults where
  results : List SearchHit
  total_matches : Nat
  deriving DecidableEq, Repr

/-- Result order from the spec: descending score, ties broken by
ascending document id. -/
def hitLe (a b : SearchHit) : Bool :=
  b.score < a.score ∨ (a.score = b.score ∧ a.doc_id ≤ b.doc_id)

/-- Insert into a list sorted by `le`. -/
def insertBy {α : Type} (le : α → α → Bool) (a : α) : List α → List α
  | [] => [a]
  | b :: bs => if le a b then a :: b :: bs else b :: insertBy le a bs

/-- Insertion sort by `le`. -/
def insertionSort {α : Type} (le : α → α → Bool) : List α → List α
  | [] => []
  | a :: as => insertBy le a (insertionSort le as)

/-- Modelled from the spec: the hits of the documents that match the
query terms (positive score), with document ids assigned by position. -/
def scoreHits (terms : List String) : Nat → List Doc → List SearchHit
  | _, [] => []
  | i, d :: rest =>
    let tail := scoreHits terms (i + 1) rest
    if 0 < docScore terms d then
      { doc_id := i, fields := storedOf d, score := docScore terms d } :: tail
    else
      tail

/-- Modelled from the spec: `Searcher.find_text` of
`core/sherlock/searcher.py` (not under `src/`) — tokenize the query,
score the matching documents, rank by descending score with ascending-id
tie-break, and return the requested page slice together with
`total_matches`; an empty result set, never an error, when nothing
matches. -/
def Searcher.find_text (docs : List Doc) (text : String) (pagenum limit : Nat) :
    SearchResults :=
  let matched := scoreHits (tokenize text) 0 docs
  { results := ((insertionSort hitLe matched).drop ((pagenum - 1) * limit)).take limit
    total_matches := matched.length }

/-- Modelled from the spec: `Searcher.find_path` of
`core/sherlock/searcher.py` (not under `src/`) — exact lookup on the
stored, non-tokenized `path` field, returning the stored fields of the
matching documents. -/
def Searcher.find_path (docs : List Doc) (p : String) : List StoredFields :=
  (docs.filter (fun d => d.path = p)).map storedOf

/-- `Index.search(text, pagenum, limit)` delegates to the searcher's
`find_text` over the indexer's committed documents. -/
def Index.search (docs : List Doc) (text : String) (pagenum limit : Nat) : SearchResults :=
  Searcher.find_text docs text pagenum limit

/-- `Index.search_path(path)` delegates to the searcher's `find_path`
over the indexer's committed documents. -/
def Index.search_path (docs : List Doc) (p : String) : List StoredFields :=
  Searcher.find_path docs p

/-- The documents a pass over the paths `l` buffers when every read
succeeds: one per path, built exactly as `_index_file` builds them. -/
def docsFor (fs : FileSys) (l : List String) : List Doc :=
  l.filterMap (fun p => (fs.read p).map (fun c => ⟨basename p, p, c⟩))

/-- A concrete file system: directory `d` holds files `a` and `b`;
reading `d/a` fails, reading `d/b` yields `hello`. -/
def fs0 : FileSys :=
  { kind := fun p =>
      if p = "d" then .dir else if p = "d/a" ∨ p = "d/b" then .file else .absent
    read := fun p => if p = "d/b" then some "hello" else none
    listdir := fun p => if p = "d" then ["a", "b"] else []
    walk := fun p => if p = "d" then [("d", ["a", "b"])] else [] }

/-- A concrete file system: directory `d` holds only the hidden file
`.hidden`, which reads fine. -/
def fs1 : FileSys :=
  { kind := fun p => if p = "d" then .dir else if p = "d/.hidden" then .file else .absent
    read := fun p => if p = "d/.hidden" then some "secret" else none
    listdir := fun p => if p = "d" then [".hidden"] else []
    walk := fun p => if p = "d" then [("d", [".hidden"])] else [] }

/-- A concrete file system: directory `d` holds a plain file, a hidden
file and a file with an excluded suffix, all readable. -/
def fs2 : FileSys :=
  { kind := fun p =>
      if p = "d" then .dir
      else if p = "d/ok.txt" ∨ p = "d/.hidden" ∨ p = "d/x.pyc" then .file
      else .absent
    read := fun p => if p = "d" then none else some "words here"
    listdir := fun p => if p = "d" then ["ok.txt", ".hidden", "x.pyc"] else []
    walk := fun p => if p = "d" then [("d", ["ok.txt", ".hidden", "x.pyc"])] else [] }

/-- Concrete settings: one excluded suffix and an index root. -/
def settings0 : Settings :=
  { EXCLUDE_FILE_SUFFIX := [".pyc"]
    INDEX_PATH := "/sherlock/indexes"
    INDEX_RECURSIVE := false
    INDEXES_PATH := "/sherlock/indexes" }

/-- A concrete indexer already opened on an empty index, flat traversal,
no writer yet. -/
def idxr0 : Indexer :=
  { _index := some []
    _writer := .noWriter
    _path := some "/sherlock/indexes/main"
    _name := "main"
    _rebuild_index := false
    _is_recursive := false }

/-- The flat indexer with an open (active) writer session. -/
def idxrAct : Indexer :=
  { idxr0 with _writer := .active [] }

/-- The indexer in recursive mode with an open (active) writer session. -/
def idxrRec : Indexer :=
  { idxr0 with _is_recursive := true, _writer := .active [] }

/-- A freshly constructed indexer with rebuild requested. -/
def idxrReb : Indexer :=
  Indexer.init "main" none (some true)

/-- An indexer whose `_path` lies outside the configured index root. -/
def idxrOut : Indexer :=
  { idxr0 with _path := some "/tmp/evil" }

/-- A concrete store holding a nonempty index for the name `main`. -/
def store0 : Store :=
  { dirs := ["/sherlock/indexes", "/sherlock/indexes/main"]
    indexes := [("/sherlock/indexes/main", [⟨"old.txt", "old.txt", "old"⟩])] }

/-- The first document of the spec's concrete search scenario. -/
def docA : Doc := ⟨"a.txt", "docs/a.txt", "the quick fox"⟩

/-- The second document of the spec's concrete search scenario. -/
def docB : Doc := ⟨"b.txt", "docs/b.txt", "the quick dog"⟩

theorem index_file_butWriter (fs : FileSys) (st : Indexer) (p : String) :
    ((Indexer._index_file fs st p).1)._index = st._index ∧
    ((Indexer._index_file fs st p).1)._path = st._path ∧
    ((Indexer._index_file fs st p).1)._is_recursive = st._is_recursive := by
  cases h : fs.read p <;> cases hw : st._writer <;>
    simp [Indexer._index_file, h, hw]

theorem index_file_error_shape (fs : FileSys) (st st1 : Indexer) (p : String) (e : IndexError)
    (h : Indexer._index_file fs st p = (st1, .error e)) :
    e = .ioError p ∨ e = .attributeError := by
  cases hr : fs.read p <;> cases hw : st._writer <;>
    simp [Indexer._index_file, hr, hw] at h <;> simp [h]

theorem indexFiles_append (fs : FileSys) (l1 l2 : List String) : ∀ st : Indexer,
    indexFiles fs st (l1 ++ l2) =
      match indexFiles fs st l1 with
      | (st1, .ok _) => indexFiles fs st1 l2
      | (st1, .error e) => (st1, .error e) := by
  induction l1 with
  | nil => intro st; rfl
  | cons p ps ih =>
    intro st
    simp only [List.cons_append, indexFiles]
    cases h : Indexer._index_file fs st p with
    | mk st1 r =>
      cases r with
      | ok u => exact ih st1
      | error e => rfl

theorem indexFiles_ok (fs : FileSys) : ∀ (l : List String) (st : Indexer) (ds : List Doc),
    st._writer = .active ds → (∀ q ∈ l, fs.read q ≠ none) →
    indexFiles fs st l = ({ st with _writer := .active (ds ++ docsFor fs l) }, .ok ()) := by
  intro l
  induction l with
  | nil =>
    intro st ds hw _
    cases st
    simp_all [indexFiles, docsFor]
  | cons p ps ih =>
    intro st ds hw hall
    have hp : fs.read p ≠ none := hall p (by simp)
    obtain ⟨c, hc⟩ := Option.ne_none_iff_exists'.mp hp
    have hrest : ∀ q ∈ ps, fs.read q ≠ none := fun q hq => hall q (by simp [hq])
    simp only [indexFiles, Indexer._index_file, hc, hw]
    rw [ih _ (ds ++ [⟨basename p, p, c⟩]) rfl hrest]
    simp [docsFor, hc, List.append_assoc]

theorem indexFiles_butWriter (fs : FileSys) : ∀ (l : List String) (st : Indexer),
    ((indexFiles fs st l).1)._index = st._index ∧
    ((indexFiles fs st l).1)._path = st._path ∧
    ((indexFiles fs st l).1)._is_recursive = st._is_recursive := by
  intro l
  induction l with
  | nil => intro st; exact ⟨rfl, rfl, rfl⟩
  | cons p ps ih =>
    intro st
    have h1 := index_file_butWriter fs st p
    simp only [indexFiles]
    cases h : Indexer._index_file fs st p with
    | mk st1 r =>
      rw [h] at h1
      cases r with
      | ok u =>
        have h2 := ih st1
        simp_all
      | error e => simp_all

theorem indexFiles_active (fs : FileSys) : ∀ (l : List String) (st : Indexer) (ds : List Doc),
    st._writer = .active ds →
    ∃ ds1, ((indexFiles fs st l).1)._writer = .active ds1 := by
  intro l
  induction l with
  | nil => intro st ds hw; exact ⟨ds, hw⟩
  | cons p ps ih =>
    intro st ds hw
    simp only [indexFiles, Indexer._index_file, hw]
    cases hc : fs.read p with
    | none => exact ⟨ds, hw⟩
    | some c => exact ih _ (ds ++ [⟨basename p, p, c⟩]) rfl

theorem indexFiles_error_shape (fs : FileSys) : ∀ (l : List String) (st st1 : Indexer)
    (e : IndexError), indexFiles fs st l = (st1, .error e) →
    (∃ p, e = .ioError p) ∨ e = .attributeError := by
  intro l
  induction l with
  | nil => intro st st1 e h; simp [indexFiles] at h
  | cons p ps ih =>
    intro st st1 e h
    simp only [indexFiles] at h
    cases hf : Indexer._index_file fs st p with
    | mk st2 r =>
      rw [hf] at h
      cases r with
      | ok u => exact ih st2 st1 e h
      | error e1 =>
        simp at h
        rcases index_file_error_shape fs st st2 p e1 hf with h1 | h1
        · exact Or.inl ⟨p, by simp [← h.2, h1]⟩
        · exact Or.inr (by simp [← h.2, h1])

theorem indexFiles_mem (fs : FileSys) : ∀ (l : List String) (st : Indexer) (d : Doc),
    d ∈ writerDocs ((indexFiles fs st l).1)._writer →
    d ∈ writerDocs st._writer ∨
      ∃ p ∈ l, ∃ c, fs.read p = some c ∧ d = ⟨basename p, p, c⟩ := by
  intro l
  induction l with
  | nil => intro st d hd; exact Or.inl hd
  | cons p ps ih =>
    intro st d hd
    simp only [indexFiles, Indexer._index_file] at hd
    cases hc : fs.read p with
    | none => rw [hc] at hd; exact Or.inl hd
    | some c =>
      rw [hc] at hd
      cases hw : st._writer with
      | active ds =>
        rw [hw] at hd
        rcases ih _ d hd with h1 | ⟨q, hq, c1, hc1, hd1⟩
        · simp only [writerDocs] at h1
          rcases List.mem_append.mp h1 with h2 | h2
          · exact Or.inl (by simp [writerDocs, hw, h2])
          · refine Or.inr ⟨p, by simp, c, hc, ?_⟩
            simpa using h2
        · exact Or.inr ⟨q, by simp [hq], c1, hc1, hd1⟩
      | noWriter => rw [hw] at hd; exact Or.inl (by simp [writerDocs, hw] at hd ⊢)
      | committed => rw [hw] at hd; exact Or.inl (by simp [writerDocs, hw] at hd ⊢)

theorem index_path_butWriter (fs : FileSys) (settings : Settings) (st : Indexer)
    (path : String) :
    ((Indexer._index_path fs settings st path).1)._index = st._index ∧
    ((Indexer._index_path fs settings st path).1)._path = st._path ∧
    ((Indexer._index_path fs settings st path).1)._is_recursive = st._is_recursive := by
  cases hk : fs.kind path with
  | dir =>
    simp only [Indexer._index_path, Indexer._index_dir, hk]
    by_cases hr : st._is_recursive = true
    · rw [if_neg (by simp [hr])]
      exact indexFiles_butWriter fs (walkFiles settings (fs.walk path)) st
    · rw [if_pos (by simp [Bool.not_eq_true] at hr ⊢; exact hr)]
      exact indexFiles_butWriter fs ((fs.listdir path).map (joinPath path)) st
  | file =>
    simp only [Indexer._index_path, hk]
    exact index_file_butWriter fs st path
  | absent => simp [Indexer._index_path, hk]

theorem index_path_active (fs : FileSys) (settings : Settings) (st : Indexer)
    (path : String) (ds : List Doc) (hw : st._writer = .active ds) :
    ∃ ds1, ((Indexer._index_path fs settings st path).1)._writer = .active ds1 := by
  cases hk : fs.kind path with
  | dir =>
    simp only [Indexer._index_path, Indexer._index_dir, hk]
    by_cases hr : st._is_recursive = true
    · rw [if_neg (by simp [hr])]
      exact indexFiles_active fs (walkFiles settings (fs.walk path)) st ds hw
    · rw [if_pos (by simp [Bool.not_eq_true] at hr ⊢; exact hr)]
      exact indexFiles_active fs ((fs.listdir path).map (joinPath path)) st ds hw
  | file =>
    simp only [Indexer._index_path, Indexer._index_file, hk, hw]
    cases hc : fs.read path with
    | none => exact ⟨ds, hw⟩
    | some c => exact ⟨ds ++ [⟨basename path, path, c⟩], rfl⟩
  | absent => exact ⟨ds, by simp [Indexer._index_path, hk, hw]⟩

theorem index_path_error_shape (fs : FileSys) (settings : Settings) (st st1 : Indexer)
    (path : String) (e : IndexError)
    (h : Indexer._index_path fs settings st path = (st1, .error e))
    (hk : fs.kind path ≠ .absent) :
    (∃ p, e = .ioError p) ∨ e = .attributeError := by
  cases hk1 : fs.kind path with
  | dir =>
    simp only [Indexer._index_path, Indexer._index_dir, hk1] at h
    by_cases hr : st._is_recursive = true
    · rw [if_neg (by simp [hr])] at h
      exact indexFiles_error_shape fs _ st st1 e h
    · rw [if_pos (by simp [Bool.not_eq_true] at hr ⊢; exact hr)] at h
      exact indexFiles_error_shape fs _ st st1 e h
  | file =>
    simp only [Indexer._index_path, hk1] at h
    rcases index_file_error_shape fs st st1 path e h with h1 | h1
    · exact Or.inl ⟨path, h1⟩
    · exact Or.inr h1
  | absent => exact absurd hk1 hk

theorem index_text_is_recursive (fs : FileSys) (settings : Settings) (st : Indexer)
    (path : String) (rec : Option Bool) :
    ((Indexer.index_text fs settings st path rec).1)._is_recursive =
      match st._index, rec with
      | none, _ => st._is_recursive
      | some _, some r => r
      | some _, none => st._is_recursive := by
  cases hidx : st._index with
  | none => simp [Indexer.index_text, hidx]
  | some docs =>
    cases rec with
    | none =>
      simp only [Indexer.index_text, hidx]
      cases hres : Indexer._index_path fs settings
          { st with _writer := WriterState.active [] } path with
      | mk st3 r3 =>
        have h3 := (index_path_butWriter fs settings
          { st with _writer := WriterState.active [] } path).2.2
        rw [hres] at h3
        cases r3 <;> simp_all
    | some r =>
      simp only [Indexer.index_text, hidx]
      cases hres : Indexer._index_path fs settings
          { st with _is_recursive := r, _writer := WriterState.active [] } path with
      | mk st3 r3 =>
        have h3 := (index_path_butWriter fs settings
          { st with _is_recursive := r, _writer := WriterState.active [] } path).2.2
        rw [hres] at h3
        cases r3 <;> simp_all

theorem scoreHits_eq_nil (terms : List String) :
    ∀ (docs : List Doc) (i : Nat), (∀ d ∈ docs, docScore terms d = 0) →
    scoreHits terms i docs = [] := by
  intro docs
  induction docs with
  | nil => intro i h; rfl
  | cons d rest ih =>
    intro i h
    have hd : docScore terms d = 0 := h d (by simp)
    simp [scoreHits, hd, ih (i + 1) (fun x hx => h x (by simp [hx]))]

theorem insertBy_length {α : Type} (le : α → α → Bool) (a : α) :
    ∀ l : List α, (insertBy le a l).length = l.length + 1 := by
  intro l
  induction l with
  | nil => rfl
  | cons b bs ih => by_cases h : le a b = true <;> simp [insertBy, h, ih]

theorem insertionSort_length {α : Type} (le : α → α → Bool) :
    ∀ l : List α, (insertionSort le l).length = l.length := by
  intro l
  induction l with
  | nil => rfl
  | cons a as ih => simp [insertionSort, insertBy_length, ih]

/-- Claim C1 counterexample: `index_text` on directory `d`, whose first
file `d/a` fails to read while `d/b` reads fine, propagates the read
error with nothing buffered and nothing committed — the remaining file
`d/b` is not indexed, so an error on one file does abort the whole
pass. -/
theorem C1_counterexample :
    (Indexer.index_text fs0 settings0 idxr0 "d" none).2 = .error (.ioError "d/a") ∧
    ((Indexer.index_text fs0 settings0 idxr0 "d" none).1)._writer = .active [] ∧
    ((Indexer.index_text fs0 settings0 idxr0 "d" none).1)._index = some [] :=
  ⟨rfl, rfl, rfl⟩

/-- Claim C1 (amended): an error while reading one file of a bulk pass
aborts the whole pass — the exception propagates at once, the files
after the failing one are never indexed, and only the documents of the
files before it remain buffered. -/
theorem C1_error_aborts_pass (fs : FileSys) (st : Indexer) (ds : List Doc)
    (l1 l2 : List String) (p : String) (hw : st._writer = .active ds)
    (h1 : ∀ q ∈ l1, fs.read q ≠ none) (h2 : fs.read p = none) :
    indexFiles fs st (l1 ++ p :: l2) =
      ({ st with _writer := .active (ds ++ docsFor fs l1) }, .error (.ioError p)) := by
  rw [indexFiles_append, indexFiles_ok fs l1 st ds hw h1]
  simp [indexFiles, Indexer._index_file, h2]

/-- Witness for the amended C1 at a concrete input: after the good file
`d/b`, the failing `d/a` aborts the pass, and `d/x` is never visited. -/
theorem C1_error_aborts_pass_witness :
    idxrAct._writer = .active [] ∧ (∀ q ∈ ["d/b"], fs0.read q ≠ none) ∧
    fs0.read "d/a" = none ∧
    indexFiles fs0 idxrAct ["d/b", "d/a", "d/x"] =
      ({ idxrAct with _writer := .active [⟨"b", "d/b", "hello"⟩] },
       .error (.ioError "d/a")) :=
  ⟨rfl, by decide, rfl,
   C1_error_aborts_pass fs0 idxrAct [] ["d/b"] ["d/x"] "d/a" rfl (by decide) rfl⟩

/-- Claim C2 counterexample: `index_text` on a path that is neither a
file nor a directory raises after the writer session was opened, and
afterwards the writer session is still open (active, lock held). -/
theorem C2_counterexample :
    (Indexer.index_text fs0 settings0 idxr0 "nope" none).2 =
      .error (.invalidPath "nope") ∧
    ((Indexer.index_text fs0 settings0 idxr0 "nope" none).1)._writer = .active [] :=
  ⟨rfl, rfl⟩

/-- Claim C2 (amended): the writer session opened at the start of
`index_text` is released (committed) exactly on the successful path;
when indexing the given path raises, `index_text` propagates the error
with the writer session still open. -/
theorem C2_writer_session (fs : FileSys) (settings : Settings) (st : Indexer)
    (path : String) (rec : Option Bool) (docs : List Doc)
    (h : st._index = some docs) :
    ((Indexer.index_text fs settings st path rec).2 = .ok () →
      ((Indexer.index_text fs settings st path rec).1)._writer = .committed) ∧
    (∀ e, (Indexer.index_text fs settings st path rec).2 = .error e →
      ∃ ds, ((Indexer.index_text fs settings st path rec).1)._writer = .active ds) := by
  cases rec with
  | none =>
    simp only [Indexer.index_text, h]
    cases hres : Indexer._index_path fs settings
        { st with _index := some docs, _writer := WriterState.active [] } path with
    | mk st3 r3 =>
      have hact := index_path_active fs settings
        { st with _index := some docs, _writer := WriterState.active [] } path [] rfl
      rw [hres] at hact
      cases r3 with
      | ok u =>
        refine ⟨fun _ => rfl, fun e he => ?_⟩
        have he2 : (Except.ok () : Except IndexError Unit) = .error e := he
        exact Except.noConfusion he2
      | error e1 =>
        refine ⟨fun he => ?_, fun e he => hact⟩
        have he2 : (Except.error e1 : Except IndexError Unit) = .ok () := he
        exact Except.noConfusion he2
  | some b =>
    simp only [Indexer.index_text, h]
    cases hres : Indexer._index_path fs settings
        { st with _index := some docs, _is_recursive := b,
                  _writer := WriterState.active [] } path with
    | mk st3 r3 =>
      have hact := index_path_active fs settings
        { st with _index := some docs, _is_recursive := b,
                  _writer := WriterState.active [] } path [] rfl
      rw [hres] at hact
      cases r3 with
      | ok u =>
        refine ⟨fun _ => rfl, fun e he => ?_⟩
        have he2 : (Except.ok () : Except IndexError Unit) = .error e := he
        exact Except.noConfusion he2
      | error e1 =>
        refine ⟨fun he => ?_, fun e he => hact⟩
        have he2 : (Except.error e1 : Except IndexError Unit) = .ok () := he
        exact Except.noConfusion he2

/-- Witness for the amended C2 at a concrete input: the error path of
`index_text` on an invalid path leaves an active writer session. -/
theorem C2_writer_session_witness :
    idxr0._index = some [] ∧
    ∃ ds, ((Indexer.index_text fs0 settings0 idxr0 "nope" none).1)._writer =
      .active ds :=
  ⟨rfl, (C2_writer_session fs0 settings0 idxr0 "nope" none [] rfl).2
    (.invalidPath "nope") rfl⟩

/-- Claim C3: `rebuild_index` defaults to `False`; with rebuild
requested, `open` replaces the index stored for the name with a fresh
empty one regardless of prior content; with rebuild off, it opens the
existing index and leaves the stored index contents unchanged. -/
theorem C3_open_rebuild (n : String) (r : Option Bool) (st : Indexer) (store : Store)
    (index_path : String) (hdir : store.isdir index_path = true) :
    (Indexer.init n r none)._rebuild_index = false ∧
    (st._rebuild_index = true →
      st.openIndex store index_path =
        .ok ({ st with _index := some [],
                       _path := some (joinPath index_path st._name) },
             ((if store.isdir (joinPath index_path st._name) then store
               else store.mkdir (joinPath index_path st._name)).create_in
                (joinPath index_path st._name))) ∧
      (∀ s : Store, (s.create_in (joinPath index_path st._name)).indexAt
          (joinPath index_path st._name) = some [])) ∧
    (∀ docs, st._rebuild_index = false →
      store.indexAt (joinPath index_path st._name) = some docs →
      st.openIndex store index_path =
        .ok ({ st with _index := some docs,
                       _path := some (joinPath index_path st._name) },
             if store.isdir (joinPath index_path st._name) then store
             else store.mkdir (joinPath index_path st._name)) ∧
      ((if store.isdir (joinPath index_path st._name) then store
        else store.mkdir (joinPath index_path st._name)).indexes = store.indexes)) := by
  refine ⟨rfl, fun hr => ⟨?_, fun s => ?_⟩, fun docs hr hidx => ⟨?_, ?_⟩⟩
  · simp only [Indexer.openIndex, hdir, hr]
    simp
  · simp [Store.create_in, Store.indexAt, List.lookup]
  · by_cases hp : store.isdir (joinPath index_path st._name) = true
    · simp only [Indexer.openIndex, hdir, hr, hp]
      simp [hidx]
    · simp only [Bool.not_eq_true] at hp
      simp only [Indexer.openIndex, hdir, hr, hp]
      have hidx2 : (store.mkdir (joinPath index_path st._name)).indexAt
          (joinPath index_path st._name) = some docs := hidx
      simp [hidx2]
  · by_cases hp : store.isdir (joinPath index_path st._name) = true <;>
      simp [hp, Store.mkdir]

/-- Witness for C3 at a concrete input: opening with rebuild on a store
whose `main` index is nonempty yields a fresh empty index for `main`. -/
theorem C3_open_rebuild_witness :
    store0.isdir "/sherlock/indexes" = true ∧
    idxrReb._rebuild_index = true ∧
    idxrReb.openIndex store0 "/sherlock/indexes" =
      .ok ({ idxrReb with _index := some [],
                          _path := some "/sherlock/indexes/main" },
           store0.create_in "/sherlock/indexes/main") ∧
    (store0.create_in "/sherlock/indexes/main").indexAt
      "/sherlock/indexes/main" = some [] :=
  ⟨rfl, rfl,
   ((C3_open_rebuild "main" none idxrReb store0 "/sherlock/indexes" rfl).2.1 rfl).1,
   rfl⟩

/-- Claim C4 counterexample: a flat (non-recursive) pass over directory
`d` containing only the hidden file `.hidden` indexes and commits it —
the hidden-file and suffix exclusions are not applied to flat passes. -/
theorem C4_counterexample :
    Indexer.index_text fs1 settings0 idxr0 "d" none =
      ({ idxr0 with _index := some [⟨".hidden", "d/.hidden", "secret"⟩],
                    _writer := .committed }, .ok ()) := rfl

/-- Claim C4 (amended): the exclusion rules apply only to recursive
passes — there every newly indexed document comes from a walk entry
whose name passes the suffix and hidden-file tests — while a flat pass
hands every directory entry to the file indexer with no exclusion
test. -/
theorem C4_exclusions (fs : FileSys) (settings : Settings) (st : Indexer)
    (dpath : String) :
    (st._is_recursive = false →
      Indexer._index_dir fs settings st dpath =
        indexFiles fs st ((fs.listdir dpath).map (joinPath dpath))) ∧
    (st._is_recursive = true →
      ∀ d ∈ writerDocs ((Indexer._index_dir fs settings st dpath).1)._writer,
        d ∈ writerDocs st._writer ∨
          ∃ step ∈ fs.walk dpath, ∃ nm ∈ step.2,
            canIndex settings nm = true ∧ d.path = joinPath step.1 nm ∧
            d.filename = basename (joinPath step.1 nm)) := by
  constructor
  · intro hr
    simp [Indexer._index_dir, hr]
  · intro hr d hd
    rw [Indexer._index_dir, if_neg (by simp [hr])] at hd
    rcases indexFiles_mem fs (walkFiles settings (fs.walk dpath)) st d hd with
      h1 | ⟨p, hp, c, hc, hdc⟩
    · exact Or.inl h1
    · simp only [walkFiles, List.mem_flatMap, List.mem_map, List.mem_filter] at hp
      rcases hp with ⟨step, hstep, nm, ⟨hnm, hci⟩, hpj⟩
      exact Or.inr ⟨step, hstep, nm, hnm, hci, by rw [hdc, ← hpj],
        by rw [hdc, ← hpj]⟩

/-- Witness for the amended C4 at a concrete input: in a recursive pass
over a directory holding `ok.txt`, `.hidden` and `x.pyc`, the indexed
document `ok.txt` traces back to a walk entry passing the exclusion
tests. -/
theorem C4_exclusions_witness :
    idxrRec._is_recursive = true ∧
    ((⟨"ok.txt", "d/ok.txt", "words here"⟩ : Doc) ∈
      writerDocs ((Indexer._index_dir fs2 settings0 idxrRec "d").1)._writer) ∧
    ((⟨"ok.txt", "d/ok.txt", "words here"⟩ : Doc) ∈ writerDocs idxrRec._writer ∨
      ∃ step ∈ fs2.walk "d", ∃ nm ∈ step.2, canIndex settings0 nm = true ∧
        (⟨"ok.txt", "d/ok.txt", "words here"⟩ : Doc).path = joinPath step.1 nm ∧
        (⟨"ok.txt", "d/ok.txt", "words here"⟩ : Doc).filename =
          basename (joinPath step.1 nm)) :=
  ⟨rfl, by decide,
   (C4_exclusions fs2 settings0 idxrRec "d").2 rfl ⟨"ok.txt", "d/ok.txt", "words here"⟩
     (by decide)⟩

/-- Claim C5: under `text_schema` the `filename` and `path` fields are
stored while `content` is indexed but not stored, and `_index_file`
builds the document with `filename` the path's base name, `path` the
full path, and the file's contents as `content`; its stored projection
is exactly the pair of base name and full path. -/
theorem C5_stored_fields (fs : FileSys) (st : Indexer) (ds : List Doc)
    (filepath contents : String) (hw : st._writer = .active ds)
    (hr : fs.read filepath = some contents) :
    text_schema.filename.stored = true ∧ text_schema.path.stored = true ∧
    text_schema.content.indexed = true ∧ text_schema.content.stored = false ∧
    Indexer._index_file fs st filepath =
      ({ st with _writer :=
          .active (ds ++ [⟨basename filepath, filepath, contents⟩]) }, .ok ()) ∧
    storedOf ⟨basename filepath, filepath, contents⟩ =
      { filename := basename filepath, path := filepath } := by
  refine ⟨rfl, rfl, rfl, rfl, ?_, rfl⟩
  simp [Indexer._index_file, hr, hw]

/-- Witness for C5 at a concrete input: indexing `d/b` buffers the
document with base name `b`, full path `d/b` and the read contents. -/
theorem C5_stored_fields_witness :
    idxrAct._writer = .active [] ∧ fs0.read "d/b" = some "hello" ∧
    Indexer._index_file fs0 idxrAct "d/b" =
      ({ idxrAct with _writer := .active [⟨"b", "d/b", "hello"⟩] }, .ok ()) :=
  ⟨rfl, rfl,
   ((C5_stored_fields fs0 idxrAct [] "d/b" "hello" rfl rfl).2.2.2.2).1⟩

/-- Claim C6: `_index_path` raises the invalid-path error exactly on a
path that is neither an existing directory nor an existing file; on an
existing directory or file any raised error is a read or writer error,
never the invalid-path one. -/
theorem C6_invalid_path (fs : FileSys) (settings : Settings) (st : Indexer)
    (path : String) :
    (fs.kind path = .absent →
      Indexer._index_path fs settings st path = (st, .error (.invalidPath path))) ∧
    (fs.kind path ≠ .absent →
      ∀ st1 e, Indexer._index_path fs settings st path = (st1, .error e) →
        ∀ q, e ≠ .invalidPath q) := by
  constructor
  · intro hk
    simp [Indexer._index_path, hk]
  · intro hk st1 e h q
    rcases index_path_error_shape fs settings st st1 path e h hk with ⟨p, hp⟩ | hp <;>
      simp [hp]

/-- Witness for C6 at a concrete input: indexing the nonexistent path
`nope` raises the invalid-path error. -/
theorem C6_invalid_path_witness :
    fs0.kind "nope" = FsKind.absent ∧
    Indexer._index_path fs0 settings0 idxr0 "nope" =
      (idxr0, .error (.invalidPath "nope")) :=
  ⟨rfl, (C6_invalid_path fs0 settings0 idxr0 "nope").1 rfl⟩

/-- Claim C7: round-trip — every document among the committed documents
is returned by a `search_path` query on its stored path, with stored
fields identical to those recorded at indexing time. -/
theorem C7_round_trip (docs : List Doc) (d : Doc) (h : d ∈ docs) :
    storedOf d ∈ Index.search_path docs d.path := by
  simp only [Index.search_path, Searcher.find_path, List.mem_map]
  exact ⟨d, List.mem_filter.mpr ⟨h, by simp⟩, rfl⟩

/-- Witness for C7 at a concrete input: the first document of the
spec's scenario is found again by searching its own path. -/
theorem C7_round_trip_witness :
    docA ∈ [docA, docB] ∧
    storedOf docA ∈ Index.search_path [docA, docB] docA.path :=
  ⟨by decide, C7_round_trip [docA, docB] docA (by decide)⟩

/-- Claim C8: `search` returns an empty result set with
`total_matches = 0` — never an error — when the query tokenizes to
nothing or when no document matches its terms, and an empty result page
whenever the requested page lies at or beyond the end of the ranked
matches. -/
theorem C8_empty_results (docs : List Doc) (text : String) (pagenum limit : Nat) :
    (tokenize text = [] →
      Index.search docs text pagenum limit = ⟨[], 0⟩) ∧
    ((∀ d ∈ docs, docScore (tokenize text) d = 0) →
      Index.search docs text pagenum limit = ⟨[], 0⟩) ∧
    ((Index.search docs text pagenum limit).total_matches ≤ (pagenum - 1) * limit →
      (Index.search docs text pagenum limit).results = []) := by
  have hzero : ∀ (h : ∀ d ∈ docs, docScore (tokenize text) d = 0),
      Index.search docs text pagenum limit = ⟨[], 0⟩ := by
    intro h
    simp [Index.search, Searcher.find_text, scoreHits_eq_nil (tokenize text) docs 0 h,
      insertionSort]
  refine ⟨fun htok => hzero ?_, hzero, fun hpage => ?_⟩
  · intro d _
    simp [docScore, htok]
  · have hlen : (insertionSort hitLe (scoreHits (tokenize text) 0 docs)).length ≤
        (pagenum - 1) * limit := by
      rw [insertionSort_length]
      exact hpage
    simp only [Index.search, Searcher.find_text]
    rw [List.drop_eq_nil_of_le hlen, List.take_nil]

/-- Witness for C8 at the spec's concrete scenario: the query
`elephant` over the two scenario documents returns an empty result set
with `total_matches = 0`. -/
theorem C8_empty_results_witness :
    (∀ d ∈ [docA, docB], docScore (tokenize "elephant") d = 0) ∧
    Index.search [docA, docB] "elephant" 1 10 = ⟨[], 0⟩ :=
  ⟨by decide, (C8_empty_results [docA, docB] "elephant" 1 10).2.1 (by decide)⟩

/-- Claim C9: `index_text` with an explicit `recursive` argument
overwrites the instance's recursion flag for good — the flag equals the
given value afterwards, and a subsequent `index_text` call that omits
the argument still runs with that value rather than the one given at
construction. -/
theorem C9_recursive_overwrite (fs : FileSys) (settings : Settings) (st : Indexer)
    (p q : String) (r : Bool) (docs : List Doc) (h : st._index = some docs) :
    ((Indexer.index_text fs settings st p (some r)).1)._is_recursive = r ∧
    ((Indexer.index_text fs settings
        ((Indexer.index_text fs settings st p (some r)).1) q none).1)._is_recursive =
      r := by
  have h1 : ((Indexer.index_text fs settings st p (some r)).1)._is_recursive = r := by
    rw [index_text_is_recursive]
    simp [h]
  refine ⟨h1, ?_⟩
  rw [index_text_is_recursive]
  cases hidx : ((Indexer.index_text fs settings st p (some r)).1)._index <;>
    simpa using h1

/-- Witness for C9 at a concrete input: constructed non-recursive,
switched to recursive by one call, and still recursive on the next
call that omits the argument. -/
theorem C9_recursive_overwrite_witness :
    idxr0._index = some [] ∧ idxr0._is_recursive = false ∧
    ((Indexer.index_text fs0 settings0 idxr0 "d" (some true)).1)._is_recursive =
      true ∧
    ((Indexer.index_text fs0 settings0
        ((Indexer.index_text fs0 settings0 idxr0 "d" (some true)).1) "d"
        none).1)._is_recursive = true :=
  ⟨rfl, rfl, (C9_recursive_overwrite fs0 settings0 idxr0 "d" "d" true [] rfl).1,
   (C9_recursive_overwrite fs0 settings0 idxr0 "d" "d" true [] rfl).2⟩

/-- Claim C10: `remove_index` touches the store only when `_path` is
set and starts with the configured index root: with `_path` unset the
store is unchanged, with a path outside the root the store is
unchanged, and with a nonempty path under the root the tree at that
path is removed. -/
theorem C10_remove_index_guard (settings : Settings) (st : Indexer) (store : Store) :
    (st._path = none → Indexer.remove_index settings st store = store) ∧
    (∀ p, st._path = some p → strStartsWith p settings.INDEX_PATH = false →
      Indexer.remove_index settings st store = store) ∧
    (∀ p, st._path = some p → p ≠ "" → strStartsWith p settings.INDEX_PATH = true →
      Indexer.remove_index settings st store = store.rmTree p) := by
  refine ⟨fun h => ?_, fun p h hs => ?_, fun p h hne hs => ?_⟩
  · simp [Indexer.remove_index, h]
  · simp [Indexer.remove_index, h, hs]
  · simp [Indexer.remove_index, h, hne, hs]

/-- Witness for C10 at a concrete input: with `_path` outside the index
root, `remove_index` leaves the store untouched. -/
theorem C10_remove_index_guard_witness :
    idxrOut._path = some "/tmp/evil" ∧
    strStartsWith "/tmp/evil" settings0.INDEX_PATH = false ∧
    Indexer.remove_index settings0 idxrOut store0 = store0 :=
  ⟨rfl, rfl,
   (C10_remove_index_guard settings0 idxrOut store0).2.1 "/tmp/evil" rfl rfl⟩

end Sherlock
